import Mathlib

/-!
Verification of the WatchCow in-flight response rewriter and notifier.

The Go sources are shallowly embedded below.  Byte buffers are `List Nat`
(each entry a byte value), Go strings used for substring probes are byte
lists as well, wall-clock instants are `Nat` nanoseconds (as produced by
Go's monotonic `time.Since` arithmetic) and syscall results are supplied
by explicit oracle records so that the pure control flow of the Go code
can be reproduced faithfully.
-/

namespace WatchCow

/-- Bytes of an ASCII string literal (used for the textual probes of the
Go sources; every probe string in the repository is pure ASCII). -/
def strBytes (s : String) : List Nat :=
  s.toList.map Char.toNat

/-- Predicate `hasPrefixAt hay needle i`: the byte list `needle` occurs in `hay`
starting exactly at position `i` (Go `strings.Contains` match site). -/
def hasPrefixAt (hay needle : List Nat) (i : Nat) : Bool :=
  needle.isPrefixOf (hay.drop i)

/-- Embedding of Go `strings.Contains` on byte strings: substring search. -/
def containsSub (hay needle : List Nat) : Bool :=
  (List.range (hay.length + 1)).any (fun i => hasPrefixAt hay needle i)

theorem containsSub_iff_isInfix (hay needle : List Nat) :
    containsSub hay needle = true ↔ needle <:+: hay := by
  unfold containsSub hasPrefixAt
  rw [List.any_eq_true]
  constructor
  · rintro ⟨i, -, hpre⟩
    rw [ List.isPrefixOf_iff_prefix] at hpre
    exact List.infix_iff_prefix_suffix.mpr ⟨hay.drop i, hpre, List.drop_suffix i hay⟩
  · intro hinf
    rcases List.infix_iff_prefix_suffix.mp hinf with ⟨t, hpre, hsuf⟩
    refine ⟨hay.length - t.length, ?_, ?_⟩
    · rw [List.mem_range]; omega
    · rw [ List.isPrefixOf_iff_prefix]
      rcases hsuf with ⟨u, hu⟩
      have hd : hay.drop u.length = t := by rw [← hu]; exact List.drop_left u t
      have hlen : u.length + t.length = hay.length := by rw [← hu, List.length_append]
      have hidx : hay.length - t.length = u.length := by omega
      rw [hidx, hd]
      exact hpre

/-!
## DataProcessor (src/internal/interceptor/processor.go)
-/

/-- One entry of an app-list response (`AppInfo` in processor.go).  Only the
fields the rewriter touches as a whole are modelled; each record is carried
verbatim, so a single opaque payload field per record suffices for the
claims, with the identifying `appName` kept explicit. -/
structure AppInfo where
  appName : List Nat
  payload : List Nat
  deriving DecidableEq, Repr

/-- The parsed shape of an app-list response (`Response` in processor.go):
`data.result`, `data.reqid` and `data.data.list`. -/
structure Response where
  result : List Nat
  reqid : List Nat
  list : List AppInfo
  deriving DecidableEq, Repr

/-- Embedding of `IsAppStoreListResponse` (processor.go:75-88): the user-space
re-verification classifies a captured payload as an app-list response iff it
contains `"result":"succ"`, `"reqid"` and `"list":[` as substrings
(unbounded `strings.Contains` over the whole byte string). -/
def isAppStoreListResponse (data : List Nat) : Bool :=
  containsSub data (strBytes "\"result\":\"succ\"") &&
    containsSub data (strBytes "\"reqid\"") &&
    containsSub data (strBytes "\"list\":[")

/-- Modelled from the spec: the classification rule §4.1 / claim C3 ascribes
to the user-space re-verification — the literal substring
`"data":{"list":[` within the first 200 bytes and `"reqid":"` within the
first 150 bytes. -/
def specAppListClassifier (data : List Nat) : Bool :=
  containsSub (data.take 200) (strBytes "\"data\":\x7b\"list\":[") &&
    containsSub (data.take 150) (strBytes "\"reqid\":\"")

/-- Embedding of `findJSONStart` (processor.go:158-165): index of the first `{` byte. -/
def findJSONStart (data : List Nat) : Option Nat :=
  data.findIdx? (fun b => b == 123)

/-- Lines 125-136 of processor.go: the new response copies `result` and
`reqid` from the parsed original and appends the Docker snapshot to the
original list. -/
def buildNewResponse (dockerApps : List AppInfo) (response : Response) : Response :=
  { result := response.result
    reqid := response.reqid
    list := response.list ++ dockerApps }

/-- Lines 144-149 of processor.go: if the binary prefix is at least 12 bytes
long, overwrite bytes 10 and 11 with the little-endian `uint16` of the new
JSON length. -/
def updatePrefixLen (pfx : List Nat) (jsonLen : Nat) : List Nat :=
  if 12 ≤ pfx.length then
    let newLen := jsonLen % 65536
    (pfx.set 10 (newLen % 256)).set 11 ((newLen / 256) % 256)
  else pfx

/-- Embedding of `InjectDockerApps` (processor.go:109-155).  JSON decoding and encoding
are the standard library's `json.Unmarshal` / `json.Marshal`; they enter the
embedding as the parameters `parse` and `marshal`, quantified over in the
theorems exactly as the claims quantify over "payloads that parse". -/
def injectDockerApps (parse : List Nat → Option Response)
    (marshal : Response → List Nat) (dockerApps : List AppInfo)
    (originalData : List Nat) : Option (List Nat) :=
  match findJSONStart originalData with
  | none => none
  | some jsonStart =>
    let pfx := originalData.take jsonStart
    let jsonData := originalData.drop jsonStart
    match parse jsonData with
    | none => none
    | some response =>
      let newJSON := marshal (buildNewResponse dockerApps response)
      some (updatePrefixLen pfx newJSON.length ++ newJSON)

/-!
## Notifier message framing (src/internal/interceptor/notifier.go)
-/

/-- Embedding of `binary.LittleEndian.PutUint32`: four little-endian bytes of `n`
truncated to 32 bits (Go's `uint32` conversion). -/
def u32le (n : Nat) : List Nat :=
  [n % 256, n / 256 % 256, n / 65536 % 256, n / 16777216 % 256]

/-- Little-endian `uint32` read of the first four bytes. -/
def decodeU32LE (bs : List Nat) : Nat :=
  bs.getD 0 0 + bs.getD 1 0 * 256 + bs.getD 2 0 * 65536 + bs.getD 3 0 * 16777216

/-- Lower-case hex digit byte, as produced by Go `encoding/json`'s `hex`
table. -/
def hexDigit (n : Nat) : Nat :=
  if n < 10 then 48 + n else 87 + n

/-- UTF-8 encoding of one scalar value (Go strings are written out as their
UTF-8 bytes once `encoding/json` decides no escape is needed). -/
def utf8Bytes (c : Char) : List Nat :=
  let n := c.toNat
  if n < 128 then [n]
  else if n < 2048 then [192 + n / 64, 128 + n % 64]
  else if n < 65536 then [224 + n / 4096, 128 + n / 64 % 64, 128 + n % 64]
  else [240 + n / 262144, 128 + n / 4096 % 64, 128 + n / 64 % 64, 128 + n % 64]

/-- Go `encoding/json` string escaping (default encoder, HTML escaping on):
`"`, `\`, `\n`, `\r`, `\t` get two-byte escapes, remaining control
characters and `<`, `>`, `&` become `\u00XX`, U+2028 and U+2029 become
six-byte unicode escapes, everything else is emitted as UTF-8. -/
def goJSONEscapeChar (c : Char) : List Nat :=
  let n := c.toNat
  if n = 34 then [92, 34]
  else if n = 92 then [92, 92]
  else if n = 10 then [92, 110]
  else if n = 13 then [92, 114]
  else if n = 9 then [92, 116]
  else if n < 32 || n = 60 || n = 62 || n = 38 then
    [92, 117, 48, 48, hexDigit (n / 16), hexDigit (n % 16)]
  else if n = 8232 || n = 8233 then
    [92, 117, 50, 48, 50, hexDigit (n % 16)]
  else utf8Bytes c

/-- Bytes of a Go-marshalled JSON string value, quotes included. -/
def goJSONString (s : String) : List Nat :=
  [34] ++ (s.toList.flatMap goJSONEscapeChar) ++ [34]

/-- Embedding of `json.Marshal` applied to the `NotifyJSON` structure built in
`buildNotifyMessage` (notifier.go:92-105): field order follows the struct
declaration, the only variable parts are the `appName` and `state`
strings. -/
def notifyJSONBytes (appName state : String) : List Nat :=
  strBytes "\x7b\"from\":\"trim.sac\",\"eventId\":\"entryChange\",\"data\":\x7b\"apps\":[\x7b\"appName\":" ++
    goJSONString appName ++ strBytes ",\"state\":" ++ goJSONString state ++
    strBytes "\x7d]\x7d\x7d"

/-- The trailing marker appended after the JSON body (notifier.go:111). -/
def notifyTrailing : List Nat :=
  strBytes "\x00trim.sac\x00"

/-- Embedding of `buildNotifyMessage` (notifier.go:90-158).  `now` is the value of
`time.Now().Unix()` at build time; Go truncates it to `uint32`.  The Go code
fills a `totalLen`-sized buffer field by field at increasing offsets, which
is exactly the concatenation below. -/
def buildNotifyMessage (now : Nat) (appName state : String) : List Nat :=
  let jsonBytes := notifyJSONBytes appName state
  let totalLen := 37 + jsonBytes.length + notifyTrailing.length
  u32le totalLen ++ u32le 0x00000200 ++ u32le 0x00000200 ++ u32le now ++
    u32le 1 ++ u32le 1000 ++ u32le 0 ++ List.replicate 8 32 ++ [0] ++
    jsonBytes ++ notifyTrailing

/-!
## Interceptor event processing and request dedup (src/unnamed/part_003,
`Interceptor.ProcessEvent`, `shouldSkipRequest`, `markRequestProcessed`)
-/

/-- Nanoseconds in the Go duration `5 * time.Second`. -/
def fiveSecondsNs : Nat := 5000000000

/-- Nanoseconds in the Go duration `1 * time.Minute`. -/
def oneMinuteNs : Nat := 60000000000

/-- One capture event as consumed by `ProcessEvent` (the loader hands the
interceptor `Data = raw[:DataLen]`, so the payload list carries its own
length; `timestamp` is the probe's nanosecond stamp). -/
structure ProcEvent where
  timestamp : Nat
  data : List Nat
  deriving DecidableEq, Repr

/-- Mutable interceptor state touched by `ProcessEvent`: the request dedup
table (reqid, last-processed wall time in nanoseconds) and the three
statistics counters. -/
structure InterceptorState where
  processedReqs : List (List Nat × Nat)
  eventsReceived : Nat
  eventsProcessed : Nat
  responsesInjected : Nat
  deriving DecidableEq, Repr

/-- Lookup in the dedup map (Go `i.processedReqs[reqID]`). -/
def lookupReq (reqs : List (List Nat × Nat)) (id : List Nat) : Option Nat :=
  (reqs.find? (fun p => p.1 == id)).map Prod.snd

/-- Embedding of `shouldSkipRequest` (part_003:231-242): skip iff the id is
present and was processed within the last five seconds (`time.Since` on
monotonic clocks is the truncated difference `now - last`). -/
def shouldSkipRequest (reqs : List (List Nat × Nat)) (now : Nat)
    (id : List Nat) : Bool :=
  match lookupReq reqs id with
  | some last => now - last < fiveSecondsNs
  | none => false

/-- Embedding of `markRequestProcessed` (part_003:245-258): store `now`
under the id, then delete every entry strictly older than one minute. -/
def markRequestProcessed (reqs : List (List Nat × Nat)) (now : Nat)
    (id : List Nat) : List (List Nat × Nat) :=
  let updated := (id, now) :: reqs.filter (fun p => ¬ p.1 = id)
  updated.filter (fun p => ¬ p.2 < now - oneMinuteNs)

/-- Resolution of the request id in `ProcessEvent` (part_003:137-140):
`ExtractReqID` parses the JSON; the embedding carries that parser as the
oracle `parseReqid`; on failure a synthetic `ts_<timestamp>` id is used. -/
def resolveReqid (parseReqid : List Nat → Option (List Nat))
    (ev : ProcEvent) : List Nat :=
  match parseReqid ev.data with
  | some r => r
  | none => strBytes "ts_" ++ strBytes (toString ev.timestamp)

/-- Embedding of `Interceptor.ProcessEvent` (part_003:77-162), restricted to
the state it mutates and the emission decision.  `injectOk` reports whether
`injectResponse` (fd duplication + rewrite + full write) succeeded for this
event; `now` is the wall-clock instant of this call.  Returns the new state
and whether a rewrite was emitted (i.e. the injected write succeeded). -/
def processEvent (parseReqid : List Nat → Option (List Nat))
    (injectOk : Bool) (now : Nat) (st : InterceptorState) (ev : ProcEvent) :
    InterceptorState × Bool :=
  let st := { st with eventsReceived := st.eventsReceived + 1 }
  if ev.data.length ≤ 20 then (st, false)
  else if ¬ isAppStoreListResponse ev.data then (st, false)
  else
    let reqID := resolveReqid parseReqid ev
    if shouldSkipRequest st.processedReqs now reqID then (st, false)
    else if injectOk then
      ({ st with
          processedReqs := markRequestProcessed st.processedReqs now reqID
          eventsProcessed := st.eventsProcessed + 1
          responsesInjected := st.responsesInjected + 1 }, true)
    else (st, false)

/-- Fold `processEvent` over a run of captures; each list entry carries the
wall-clock instant of the call, the event and whether its injection attempt
would succeed.  Returns the final state and the number of emitted
rewrites. -/
def runEvents (parseReqid : List Nat → Option (List Nat))
    (evs : List (Nat × ProcEvent × Bool)) (st : InterceptorState) :
    InterceptorState × Nat :=
  match evs with
  | [] => (st, 0)
  | (now, ev, ok) :: rest =>
    ((runEvents parseReqid rest (processEvent parseReqid ok now st ev).1).1,
     (if (processEvent parseReqid ok now st ev).2 = true then 1 else 0) +
       (runEvents parseReqid rest (processEvent parseReqid ok now st ev).1).2)

/-!
## Socket selection for notifications (src/unnamed/part_003
`findActiveSocketFDs`, `getSocketDetailedInfo`; sockdiag.go `GetSocketPath`,
`hasTrimPeer`, `findProcessByInode`)
-/

/-- One parsed row of a `/proc/.../net/unix` fixture (the Go code splits
each line into fields and uses field 5 = state, field 6 = inode, field 7 =
optional path). -/
structure UnixLine where
  inode : List Nat
  state : List Nat
  path : Option (List Nat)
  deriving DecidableEq, Repr

/-- Fixture environment for the socket scan: readlink results per fd,
the two `/proc` net-unix tables consulted, the `SOCK_DIAG` peer-inode
resolver (`get_peer_inode_cgo`, which reports failure as 0) and the
`/proc`-scanning inode-to-process resolver (`findProcessByInode`,
yielding pid and basename of the first cmdline token). -/
structure SocketEnv where
  readlink : Nat → Option (List Nat)
  globalUnix : List UnixLine
  pidUnix : List UnixLine
  resolvePeer : Nat → Nat
  peerProcess : Nat → Option (Nat × List Nat)

/-- Embedding of `lookupUnixSocketPathFromFile` (sockdiag.go:392-415): the
first row matching the inode yields its path; a pathless (anonymous) row or
a missing row is an error. -/
def lookupUnixPath (lines : List UnixLine) (inode : List Nat) :
    Option (List Nat) :=
  (lines.find? (fun l => l.inode == inode)).bind (fun l => l.path)

/-- Extraction `socketPath[8 : len(socketPath)-1]` used by the Go code on
`socket:[inode]` targets (callers establish the `socket:[` prefix first). -/
def extractInode (target : List Nat) : List Nat :=
  (target.drop 8).dropLast

/-- Embedding of `GetSocketPath` (sockdiag.go:353-378): for an anonymous
`socket:[inode]` readlink target, try to resolve a filesystem path through
`/proc/net/unix` and then through `/proc/<pid>/net/unix`; a resolved path is
reported as `path (inode:N)`, otherwise the raw target is returned. -/
def getSocketPath (env : SocketEnv) (target : List Nat) : List Nat :=
  if (strBytes "socket:[").isPrefixOf target ∧
      (strBytes "]").isSuffixOf target then
    let inode := extractInode target
    match lookupUnixPath env.globalUnix inode with
    | some p => p ++ strBytes " (inode:" ++ inode ++ strBytes ")"
    | none =>
      match lookupUnixPath env.pidUnix inode with
      | some p => p ++ strBytes " (inode:" ++ inode ++ strBytes ")"
      | none => target
  else target

/-- Embedding of `getSocketDetailedInfo` (part_003:489-531): find the row of
`/proc/<pid>/net/unix` whose inode matches; the socket counts as connected
iff its state field is `01` or `03`.  Returns the connection verdict and the
extracted inode string. -/
def getSocketDetailedInfo (env : SocketEnv) (socketPath : List Nat) :
    Bool × List Nat :=
  if (strBytes "socket:[").isPrefixOf socketPath then
    match env.pidUnix.find? (fun l => l.inode == extractInode socketPath) with
    | some line =>
      ((line.state == strBytes "01" || line.state == strBytes "03"),
        extractInode socketPath)
    | none => (false, extractInode socketPath)
  else (false, [])

/-- Embedding of `strconv.ParseUint(s, 10, 32)`: nonempty all-digit strings
whose value fits in 32 bits. -/
def parseUint32Str (s : List Nat) : Option Nat :=
  if s ≠ [] ∧ s.all (fun b => 48 ≤ b ∧ b ≤ 57) then
    let v := s.foldl (fun acc b => acc * 10 + (b - 48)) 0
    if v < 4294967296 then some v else none
  else none

/-- Embedding of `hasTrimPeer` (sockdiag.go:230-256): parse the inode,
resolve the peer inode over `SOCK_DIAG` (0 means failure), find the peer
process, and accept iff its name contains `trim` but not `trim_sac`. -/
def hasTrimPeer (env : SocketEnv) (inode : List Nat) : Bool :=
  match parseUint32Str inode with
  | none => false
  | some n =>
    let peer := env.resolvePeer n
    if peer = 0 then false
    else
      match env.peerProcess peer with
      | none => false
      | some (_, name) =>
        containsSub name (strBytes "trim") &&
          !containsSub name (strBytes "trim_sac")

/-- Per-fd acceptance test of `findActiveSocketFDs` (part_003:317-378):
skip fds below 3, readlink the fd, keep only anonymous `socket:[...]`
paths, then require the connected state and a `trim` (non-`trim_sac`)
peer. -/
def acceptFD (env : SocketEnv) (fdNum : Nat) : Bool :=
  if fdNum < 3 then false
  else
    match env.readlink fdNum with
    | none => false
    | some target =>
      let socketPath := getSocketPath env target
      if ¬ (strBytes "socket:[").isPrefixOf socketPath then false
      else
        let conn := getSocketDetailedInfo env socketPath
        conn.1 && hasTrimPeer env conn.2

/-- Embedding of `findActiveSocketFDs` (part_003:301-381) over the fd
numbers listed in `/proc/<pid>/fd`. -/
def findActiveSocketFDs (env : SocketEnv) (fdList : List Nat) : List Nat :=
  fdList.filter (acceptFD env)

/-!
## PidfdManager and notification delivery (sockdiag.go `PidfdManager`,
notifier.go `sendToFD`, part_003 `SendContainerNotification`)
-/

/-- Syscall actions performed by the borrow/send machinery, recorded as a
trace: a descriptor-flags validation (`fcntl F_GETFD`), a
`pidfd_open`+`pidfd_getfd` duplication with its result, a `write` with its
result, and a `close`. -/
inductive FDAction where
  | validate (fd : Nat)
  | dupSys (pid fd : Nat) (res : Option Nat)
  | wr (fd : Nat) (msg : List Nat) (res : Option Nat)
  | close (fd : Nat)
  deriving DecidableEq, Repr

/-- Syscall oracle: results of fd validation, cross-process duplication and
socket writes (`none` models a syscall error; for `write`, `some n` is the
byte count actually transferred). -/
structure SysOracle where
  valid : Nat → Bool
  dup : Nat → Nat → Option Nat
  write : Nat → List Nat → Option Nat

/-- State of `PidfdManager`: the `(pid, fd) -> duplicated fd` cache. -/
structure PidfdState where
  cachedFDs : List ((Nat × Nat) × Nat)
  deriving DecidableEq, Repr

/-- Cache lookup (`pm.cachedFDs[key]`). -/
def lookupCache (st : PidfdState) (pid fd : Nat) : Option Nat :=
  (st.cachedFDs.find? (fun p => p.1 == (pid, fd))).map Prod.snd

/-- Cache insertion (`pm.cachedFDs[key] = newFD`). -/
def insertCache (st : PidfdState) (pid fd newFD : Nat) : PidfdState :=
  ⟨((pid, fd), newFD) :: st.cachedFDs.filter (fun p => ¬ p.1 = (pid, fd))⟩

/-- Cache eviction (`delete(pm.cachedFDs, key)`). -/
def eraseCache (st : PidfdState) (pid fd : Nat) : PidfdState :=
  ⟨st.cachedFDs.filter (fun p => ¬ p.1 = (pid, fd))⟩

/-- Embedding of `DuplicateSocketFD` (sockdiag.go:281-304): return a cached
duplicate after an `F_GETFD` validation, evicting and re-duplicating on
validation failure; cache any fresh duplicate.  Returns the new state, the
resulting fd (if any) and the syscall trace. -/
def duplicateSocketFD (o : SysOracle) (st : PidfdState) (pid fd : Nat) :
    PidfdState × Option Nat × List FDAction :=
  match lookupCache st pid fd with
  | some cached =>
    if o.valid cached then (st, some cached, [.validate cached])
    else
      let st' := eraseCache st pid fd
      match o.dup pid fd with
      | none => (st', none, [.validate cached, .dupSys pid fd none])
      | some newFD =>
        (insertCache st' pid fd newFD, some newFD,
          [.validate cached, .dupSys pid fd (some newFD)])
  | none =>
    match o.dup pid fd with
    | none => (st, none, [.dupSys pid fd none])
    | some newFD =>
      (insertCache st pid fd newFD, some newFD, [.dupSys pid fd (some newFD)])

/-- Embedding of `DuplicateSocketFDNocache` (sockdiag.go:319-321): a bare
duplication; the cache is untouched and the caller owns the close. -/
def duplicateSocketFDNocache (o : SysOracle) (st : PidfdState)
    (pid fd : Nat) : PidfdState × Option Nat × List FDAction :=
  (st, o.dup pid fd, [.dupSys pid fd (o.dup pid fd)])

/-- Embedding of `PidfdManager.Close` (sockdiag.go:307-315): close every
cached fd and reset the cache. -/
def closePidfdManager (st : PidfdState) : PidfdState × List FDAction :=
  (⟨[]⟩, st.cachedFDs.map (fun p => .close p.2))

/-- Embedding of `sendToFD` (notifier.go:161-179): duplicate the target fd
without caching, write the message once, close the duplicate; the attempt
fails on a duplication error, a write error, or a partial write. -/
def sendToFD (o : SysOracle) (st : PidfdState) (pid fd : Nat)
    (message : List Nat) : PidfdState × Bool × List FDAction :=
  match duplicateSocketFDNocache o st pid fd with
  | (st', none, tr) => (st', false, tr)
  | (st', some dupFD, tr) =>
    let res := o.write dupFD message
    let ok := match res with
      | none => false
      | some n => n == message.length
    (st', ok, tr ++ [.wr dupFD message res, .close dupFD])

/-- Embedding of `sendToActiveClient` (notifier.go:68-87): build the notify
message for `(appName, state)` and send it to the given fd. -/
def sendToActiveClient (o : SysOracle) (st : PidfdState) (pid fd : Nat)
    (now : Nat) (appName state : String) : PidfdState × Bool × List FDAction :=
  sendToFD o st pid fd (buildNotifyMessage now appName state)

/-- Broadcast loop of `SendContainerNotification` (part_003:620-643): try
every candidate fd, count successes, succeed iff at least one write went
through. -/
def broadcastToFDs (o : SysOracle) (st : PidfdState) (pid : Nat) (now : Nat)
    (appName state : String) : List Nat → PidfdState × Nat × List FDAction
  | [] => (st, 0, [])
  | fd :: rest =>
    ((broadcastToFDs o (sendToActiveClient o st pid fd now appName state).1
        pid now appName state rest).1,
     (if (sendToActiveClient o st pid fd now appName state).2.1 then 1 else 0) +
       (broadcastToFDs o (sendToActiveClient o st pid fd now appName state).1
         pid now appName state rest).2.1,
     (sendToActiveClient o st pid fd now appName state).2.2 ++
       (broadcastToFDs o (sendToActiveClient o st pid fd now appName state).1
         pid now appName state rest).2.2)

/-- Embedding of `SendContainerNotification` (part_003:585-644) given the
already-selected candidate fds: fail on an empty candidate set, otherwise
broadcast and succeed iff some write succeeded. -/
def sendContainerNotification (o : SysOracle) (st : PidfdState) (pid : Nat)
    (now : Nat) (appName state : String) (fds : List Nat) :
    PidfdState × Bool × List FDAction :=
  if fds.isEmpty then (st, false, [])
  else
    ((broadcastToFDs o st pid now appName state fds).1,
     (broadcastToFDs o st pid now appName state fds).2.1 != 0,
     (broadcastToFDs o st pid now appName state fds).2.2)

/-- The fd numbers probed by the fallback scan (`commonFDs`,
part_003:196). -/
def commonFDs : List Nat := [3, 4, 5, 6, 7, 8, 9, 10, 11, 12]

/-- Embedding of `findAndDuplicateSocketFD` (part_003:194-216): walk the
common fd numbers, resolve each one's socket path (skipping readlink
failures), and on a path containing `trim_sac.socket` or `socket:[` try the
caching `DuplicateSocketFD`, returning the first success.  The manager
state threads through every attempt and the syscall trace is collected. -/
def findAndDuplicateSocketFD (o : SysOracle) (env : SocketEnv)
    (st : PidfdState) (pid : Nat) :
    List Nat → PidfdState × Option Nat × List FDAction
  | [] => (st, none, [])
  | fd :: rest =>
    match env.readlink fd with
    | none => findAndDuplicateSocketFD o env st pid rest
    | some target =>
      if containsSub (getSocketPath env target)
            (strBytes "trim_sac.socket") ||
          containsSub (getSocketPath env target) (strBytes "socket:[") then
        match duplicateSocketFD o st pid fd with
        | (st1, some newFD, tr1) => (st1, some newFD, tr1)
        | (st1, none, tr1) =>
          match findAndDuplicateSocketFD o env st1 pid rest with
          | (st2, res, tr2) => (st2, res, tr1 ++ tr2)
      else findAndDuplicateSocketFD o env st pid rest

/-- Tail of `injectResponse` after a duplicate fd is available
(part_003:177-190): the deferred `syscall.Close(newFD)` runs on every exit
path, the rewrite failure drops the payload, and `SendData` performs one
write that fails when partial. -/
def injectResponseSend (o : SysOracle) (newFD : Nat) :
    Option (List Nat) → Bool × List FDAction
  | none => (false, [.close newFD])
  | some md =>
    match o.write newFD md with
    | none => (false, [.wr newFD md none, .close newFD])
    | some n => (n == md.length, [.wr newFD md (some n), .close newFD])

/-- Embedding of `injectResponse` (part_003:165-191): borrow the captured
fd through the caching `DuplicateSocketFD` (falling back to the common-fd
scan on failure), build the rewrite with `InjectDockerApps`, send it, and
close the borrowed fd with the deferred close.  Returns the manager state,
the success verdict and the syscall trace. -/
def injectResponse (o : SysOracle) (env : SocketEnv)
    (parse : List Nat → Option Response) (marshal : Response → List Nat)
    (dockerApps : List AppInfo) (st : PidfdState) (pid fd : Nat)
    (data : List Nat) : PidfdState × Bool × List FDAction :=
  match duplicateSocketFD o st pid fd with
  | (st1, some newFD, tr1) =>
    (st1,
     (injectResponseSend o newFD
       (injectDockerApps parse marshal dockerApps data)).1,
     tr1 ++ (injectResponseSend o newFD
       (injectDockerApps parse marshal dockerApps data)).2)
  | (st1, none, tr1) =>
    match findAndDuplicateSocketFD o env st1 pid commonFDs with
    | (st2, none, tr2) => (st2, false, tr1 ++ tr2)
    | (st2, some newFD, tr2) =>
      (st2,
       (injectResponseSend o newFD
         (injectDockerApps parse marshal dockerApps data)).1,
       tr1 ++ tr2 ++ (injectResponseSend o newFD
         (injectDockerApps parse marshal dockerApps data)).2)

/-!
## Kernel probe (src/unnamed/part_006, `trace_write` in bpf/unix_hook.c)
-/

/-- Constant `MAX_DATA_SIZE` from bpf/common.h. -/
def maxDataSize : Nat := 4096

/-- Capture length computation of `trace_write` (part_006:88-103): reject
zero or unrepresentable counts, cap at `MAX_DATA_SIZE`, then apply the
verifier-appeasing mask `read_len & 0xFFF`. -/
def traceWriteReadLen (count : Nat) : Nat :=
  if 0 < count ∧ count < 2147483647 then
    let r := if count > maxDataSize then maxDataSize else count
    r &&& 4095
  else 0

/-- Kernel-side app-list pattern `"data":{"list":[` (part_006:119). -/
def appStorePattern : List Nat := strBytes "\"data\":\x7b\"list\":["

/-- Kernel-side reqid pattern `"reqid":"` (part_006:139-144). -/
def reqidPattern : List Nat := strBytes "\"reqid\":\""

/-- Kernel-side notify pattern `"notify":[` (part_006:162). -/
def notifyPattern : List Nat := strBytes "\"notify\":["

/-- First match position of a byte pattern below a loop bound: the C loops
run `for (i = 0; i < bound; i++)` and compare the pattern bytes at `i`. -/
def findFirstAt (data pattern : List Nat) (bound : Nat) : Option Nat :=
  (List.range bound).find? (fun i => hasPrefixAt data pattern i)

/-- App-list classification and reqid invalidation of `trace_write`
(part_006:114-157): when the payload is over 100 bytes and the app-list
pattern occurs below `min 200 (len - 16)`, set `FLAG_APPSTORE`; then, if the
reqid pattern occurs at some `k` below `min 150 (len - 40)`, schedule one
`bpf_probe_write_user` of the four bytes `XXXX` at offset `k + 9 + 24` of
the caller's buffer.  Returns the flag and the list of user-memory writes. -/
def traceWriteAppStore (data : List Nat) : Bool × List (Nat × List Nat) :=
  if data.length > 100 then
    match findFirstAt data appStorePattern (min 200 (data.length - 16)) with
    | none => (false, [])
    | some _ =>
      match findFirstAt data reqidPattern (min 150 (data.length - 40)) with
      | none => (true, [])
      | some k => (true, [(k + 9 + 24, strBytes "XXXX")])
  else (false, [])

/-- Notify classification of `trace_write` (part_006:159-176). -/
def traceWriteNotify (data : List Nat) : Bool :=
  if data.length > 50 then
    (findFirstAt data notifyPattern (min 200 (data.length - 10))).isSome
  else false

/-- Result of one `trace_write` invocation: the event fields that reach
user space and the scheduled writes into the caller's buffer. -/
structure TraceResult where
  dataLen : Nat
  data : List Nat
  flags : Nat
  userWrites : List (Nat × List Nat)
  deriving DecidableEq, Repr

/-- Embedding of `trace_write` (part_006:30-182) for a qualifying
`write(2)` (comm `trim_sac`, `3 ≤ fd ≤ 1024`, readable buffer): `buf` is
the caller's buffer content, `count` the syscall's byte count. -/
def traceWrite (buf : List Nat) (count : Nat) : TraceResult :=
  let readLen := traceWriteReadLen count
  let data := buf.take readLen
  let app := traceWriteAppStore data
  let flags := (if app.1 then 1 else 0) + (if traceWriteNotify data then 2 else 0)
  { dataLen := readLen, data := data, flags := flags, userWrites := app.2 }

/-- Effect of one `bpf_probe_write_user(addr, bytes)` on the caller's
buffer: overwrite `bytes.length` bytes starting at `off`. -/
def writeAt (buf : List Nat) (off : Nat) (bytes : List Nat) : List Nat :=
  buf.take off ++ bytes ++ buf.drop (off + bytes.length)

/-- Apply every scheduled user-memory write in order. -/
def applyUserWrites (buf : List Nat) (ws : List (Nat × List Nat)) : List Nat :=
  ws.foldl (fun b p => writeAt b p.1 p.2) buf

/-!
## Theorems
-/

/-- A successful `findJSONStart` index is inside the buffer. -/
theorem findJSONStart_lt_length {data : List Nat} {j : Nat}
    (h : findJSONStart data = some j) : j < data.length :=
  (List.findIdx?_eq_some_iff_findIdx_eq.mp h).1

/-- C1: for every captured app-list response payload that parses under the
JSON decoder out of any record snapshot, `InjectDockerApps` emits the
(prefix-patched) serialisation of a response whose `result` and `reqid` are
copied verbatim from the parsed payload and whose `list` is the original
list followed by the Docker snapshot — originals first, verbatim and in
order, then the snapshot's records in their order. -/
theorem c1_inject_preserves_originals
    (parse : List Nat → Option Response) (marshal : Response → List Nat)
    (dockerApps : List AppInfo) (originalData : List Nat)
    (jsonStart : Nat) (response : Response)
    (hstart : findJSONStart originalData = some jsonStart)
    (hparse : parse (originalData.drop jsonStart) = some response) :
    (injectDockerApps parse marshal dockerApps originalData =
      some (updatePrefixLen (originalData.take jsonStart)
              (marshal (buildNewResponse dockerApps response)).length ++
            marshal (buildNewResponse dockerApps response))) ∧
    (buildNewResponse dockerApps response).result = response.result ∧
    (buildNewResponse dockerApps response).reqid = response.reqid ∧
    (buildNewResponse dockerApps response).list =
      response.list ++ dockerApps ∧
    (buildNewResponse dockerApps response).list.take response.list.length =
      response.list ∧
    (buildNewResponse dockerApps response).list.drop response.list.length =
      dockerApps := by
  refine ⟨?_, rfl, rfl, rfl, ?_, ?_⟩
  · unfold injectDockerApps
    rw [hstart]
    simp only [hparse]
  · exact List.take_left response.list dockerApps
  · exact List.drop_left response.list dockerApps

/-- Witness for C1 at a concrete payload, parser and snapshot. -/
theorem c1_inject_preserves_originals_witness :
    (injectDockerApps
        (fun _ => some ⟨strBytes "succ", strBytes "abc", []⟩)
        (fun _ => strBytes "x") [⟨strBytes "nginx", []⟩]
        (strBytes "\x7b\x7d") =
      some (updatePrefixLen ((strBytes "\x7b\x7d").take 0)
              ((fun (_ : Response) => strBytes "x")
                (buildNewResponse [⟨strBytes "nginx", []⟩]
                  ⟨strBytes "succ", strBytes "abc", []⟩)).length ++
            (fun (_ : Response) => strBytes "x")
              (buildNewResponse [⟨strBytes "nginx", []⟩]
                ⟨strBytes "succ", strBytes "abc", []⟩))) ∧ True := by
  refine ⟨?_, trivial⟩
  exact (c1_inject_preserves_originals
    (fun _ => some ⟨strBytes "succ", strBytes "abc", []⟩)
    (fun _ => strBytes "x") [⟨strBytes "nginx", []⟩]
    (strBytes "\x7b\x7d") 0 ⟨strBytes "succ", strBytes "abc", []⟩
    (by decide) rfl).1

/-- C5: under the same parse hypotheses, when the binary prefix (the bytes
before the JSON start) is at least 12 bytes long, bytes 10 and 11 of the
emitted output are the little-endian `uint16` of the new JSON length and
every other prefix byte is emitted unchanged; a prefix shorter than 12
bytes is emitted entirely unchanged.  In both cases the new JSON follows
the prefix. -/
theorem c5_prefix_length_update
    (parse : List Nat → Option Response) (marshal : Response → List Nat)
    (dockerApps : List AppInfo) (originalData : List Nat)
    (jsonStart : Nat) (response : Response)
    (hstart : findJSONStart originalData = some jsonStart)
    (hparse : parse (originalData.drop jsonStart) = some response) :
    ∃ out, injectDockerApps parse marshal dockerApps originalData = some out ∧
      (out.drop jsonStart = marshal (buildNewResponse dockerApps response) ∧
       (12 ≤ jsonStart →
          out.getD 10 0 =
            (marshal (buildNewResponse dockerApps response)).length % 256 ∧
          out.getD 11 0 =
            (marshal (buildNewResponse dockerApps response)).length / 256 % 256 ∧
          ∀ i, i < jsonStart → i ≠ 10 → i ≠ 11 →
            out.getD i 0 = originalData.getD i 0) ∧
       (jsonStart < 12 →
          out.take jsonStart = originalData.take jsonStart)) := by
  have hlt : jsonStart < originalData.length := findJSONStart_lt_length hstart
  set L := (marshal (buildNewResponse dockerApps response)).length with hL
  set newJSON := marshal (buildNewResponse dockerApps response) with hnj
  set pfx := originalData.take jsonStart with hpfx
  have hplen : pfx.length = jsonStart := by
    rw [hpfx, List.length_take]
    omega
  set upd := updatePrefixLen pfx L with hupd
  have hulen : upd.length = jsonStart := by
    rw [hupd]
    unfold updatePrefixLen
    by_cases h12 : 12 ≤ pfx.length
    · rw [if_pos h12]
      simpa using hplen
    · rw [if_neg h12]
      exact hplen
  refine ⟨upd ++ newJSON, ?_, ?_, ?_, ?_⟩
  · unfold injectDockerApps
    rw [hstart]
    simp only [hparse]
  · rw [← hulen, List.drop_left]
  · intro h12
    have h12' : 12 ≤ pfx.length := by omega
    have hset : upd = (pfx.set 10 ((L % 65536) % 256)).set 11
        ((L % 65536) / 256 % 256) := by
      rw [hupd]
      unfold updatePrefixLen
      rw [if_pos h12']
    have h10lt : (10 : Nat) < upd.length := by omega
    have h11lt : (11 : Nat) < upd.length := by omega
    refine ⟨?_, ?_, ?_⟩
    · have : (upd ++ newJSON).getD 10 0 = upd.getD 10 0 := by
        simp [List.getD, List.getElem?_append_left h10lt]
      rw [this, hset]
      have : ((pfx.set 10 ((L % 65536) % 256)).set 11
          ((L % 65536) / 256 % 256)).getD 10 0 =
          (pfx.set 10 ((L % 65536) % 256)).getD 10 0 := by
        simp [List.getD, List.getElem?_set_ne (by omega : (11:Nat) ≠ 10)]
      rw [this]
      have h10p : (10 : Nat) < pfx.length := by omega
      have : (pfx.set 10 ((L % 65536) % 256)).getD 10 0 = (L % 65536) % 256 := by
        simp [List.getD, List.getElem?_set_self', h10p]
      rw [this]
      rw [Nat.mod_mod_of_dvd L (by norm_num : (256:ℕ) ∣ 65536)]
    · have : (upd ++ newJSON).getD 11 0 = upd.getD 11 0 := by
        simp [List.getD, List.getElem?_append_left h11lt]
      rw [this, hset]
      have h11p : (11 : Nat) < pfx.length := by omega
      have : ((pfx.set 10 ((L % 65536) % 256)).set 11
          ((L % 65536) / 256 % 256)).getD 11 0 = (L % 65536) / 256 % 256 := by
        simp [List.getD, List.getElem?_set_self', h11p]
      rw [this]
      have h65536 : (65536 : ℕ) = 256 * 256 := by norm_num
      rw [h65536, Nat.mod_mul_right_div_self, Nat.mod_mod_of_dvd _ dvd_rfl]
    · intro i hij hi10 hi11
      have hiu : i < upd.length := by omega
      have : (upd ++ newJSON).getD i 0 = upd.getD i 0 := by
        simp [List.getD, List.getElem?_append_left hiu]
      rw [this, hset]
      have hip : i < pfx.length := by omega
      have : ((pfx.set 10 ((L % 65536) % 256)).set 11
          ((L % 65536) / 256 % 256)).getD i 0 = pfx.getD i 0 := by
        simp [List.getD, List.getElem?_set_ne (by omega : (11:Nat) ≠ i),
          List.getElem?_set_ne (by omega : (10:Nat) ≠ i)]
      rw [this, hpfx]
      simp [List.getD, List.getElem?_take_of_lt hij]
  · intro h12
    have h12' : ¬ 12 ≤ pfx.length := by omega
    have hset : upd = pfx := by
      rw [hupd]
      unfold updatePrefixLen
      rw [if_neg h12']
    rw [← hulen, List.take_left, hset]

/-- Witness for C5 at a concrete twelve-byte prefix and parser (scenario S1
of the spec: the prefix carries a patchable length field). -/
theorem c5_prefix_length_update_witness :
    ∃ out, injectDockerApps
        (fun _ => some ⟨strBytes "succ", strBytes "abc", []⟩)
        (fun _ => strBytes "json") []
        (List.replicate 12 0 ++ strBytes "\x7b\x7d") = some out ∧
      (out.drop 12 = (fun (_ : Response) => strBytes "json")
          (buildNewResponse [] ⟨strBytes "succ", strBytes "abc", []⟩) ∧
       (12 ≤ 12 →
          out.getD 10 0 = ((fun (_ : Response) => strBytes "json")
            (buildNewResponse [] ⟨strBytes "succ", strBytes "abc", []⟩)).length % 256 ∧
          out.getD 11 0 = ((fun (_ : Response) => strBytes "json")
            (buildNewResponse [] ⟨strBytes "succ", strBytes "abc", []⟩)).length / 256 % 256 ∧
          ∀ i, i < 12 → i ≠ 10 → i ≠ 11 →
            out.getD i 0 = (List.replicate 12 0 ++ strBytes "\x7b\x7d").getD i 0) ∧
       (12 < 12 →
          out.take 12 = (List.replicate 12 0 ++ strBytes "\x7b\x7d").take 12)) :=
  c5_prefix_length_update
    (fun _ => some ⟨strBytes "succ", strBytes "abc", []⟩)
    (fun _ => strBytes "json") []
    (List.replicate 12 0 ++ strBytes "\x7b\x7d") 12
    ⟨strBytes "succ", strBytes "abc", []⟩ (by decide) rfl

/-- Round trip of the 32-bit little-endian length field. -/
theorem decodeU32LE_u32le_append (t : Nat) (r : List Nat)
    (h : t < 4294967296) : decodeU32LE (u32le t ++ r) = t := by
  simp only [u32le, decodeU32LE, List.cons_append, List.nil_append,
    List.getD_cons_zero, List.getD_cons_succ]
  omega

/-- C2: the built notification message starts with the 37-byte header
`totalLen:u32`, two `0x00000200` markers, `unixSeconds:u32`, `id = 1`,
`category = 1000`, `level = 0`, eight ASCII spaces and one zero byte, all
little-endian; the `totalLen` field equals the byte length of the whole
message; the marshalled `NotifyJSON` body follows the header; and the
trailing ten bytes are `\0trim.sac\0`. -/
theorem c2_notify_layout (now : Nat) (appName state : String) :
    (buildNotifyMessage now appName state).take 37 =
      u32le (buildNotifyMessage now appName state).length ++
        u32le 0x00000200 ++ u32le 0x00000200 ++ u32le now ++ u32le 1 ++
        u32le 1000 ++ u32le 0 ++ List.replicate 8 32 ++ [0] ∧
    ((buildNotifyMessage now appName state).length < 4294967296 →
      decodeU32LE (buildNotifyMessage now appName state) =
        (buildNotifyMessage now appName state).length) ∧
    (buildNotifyMessage now appName state).drop 37 =
      strBytes "\x7b\"from\":\"trim.sac\",\"eventId\":\"entryChange\",\"data\":\x7b\"apps\":[\x7b\"appName\":" ++
        goJSONString appName ++ strBytes ",\"state\":" ++
        goJSONString state ++ strBytes "\x7d]\x7d\x7d" ++ notifyTrailing ∧
    (buildNotifyMessage now appName state).drop
        ((buildNotifyMessage now appName state).length - 10) =
      strBytes "\x00trim.sac\x00" := by
  have htr : notifyTrailing.length = 10 := by decide
  have hlen : (buildNotifyMessage now appName state).length =
      37 + (notifyJSONBytes appName state).length + 10 := by
    simp only [buildNotifyMessage, htr, List.length_append, u32le,
      List.length_cons, List.length_nil, List.length_replicate]
  have hassoc : buildNotifyMessage now appName state =
      (u32le (37 + (notifyJSONBytes appName state).length + 10) ++
        u32le 0x00000200 ++ u32le 0x00000200 ++ u32le now ++ u32le 1 ++
        u32le 1000 ++ u32le 0 ++ List.replicate 8 32 ++ [0]) ++
      (notifyJSONBytes appName state ++ notifyTrailing) := by
    simp only [buildNotifyMessage, htr, List.append_assoc]
  have hhdrlen : (u32le (37 + (notifyJSONBytes appName state).length + 10) ++
      u32le 0x00000200 ++ u32le 0x00000200 ++ u32le now ++ u32le 1 ++
      u32le 1000 ++ u32le 0 ++ List.replicate 8 32 ++ [0]).length = 37 := by
    simp [u32le]
  refine ⟨?_, ?_, ?_, ?_⟩
  · conv_lhs => rw [hassoc]
    rw [List.take_left' hhdrlen, hlen]
  · intro hsmall
    have ht : 37 + (notifyJSONBytes appName state).length + 10 <
        4294967296 := by
      rw [hlen] at hsmall
      exact hsmall
    have hflat : buildNotifyMessage now appName state =
        u32le (37 + (notifyJSONBytes appName state).length + 10) ++
          (u32le 0x00000200 ++ (u32le 0x00000200 ++ (u32le now ++ (u32le 1 ++
           (u32le 1000 ++ (u32le 0 ++ (List.replicate 8 32 ++ ([0] ++
           (notifyJSONBytes appName state ++ notifyTrailing))))))))) := by
      rw [hassoc]
      simp only [List.append_assoc]
    calc decodeU32LE (buildNotifyMessage now appName state)
        = 37 + (notifyJSONBytes appName state).length + 10 := by
          rw [hflat]
          exact decodeU32LE_u32le_append _ _ ht
      _ = (buildNotifyMessage now appName state).length := hlen.symm
  · conv_lhs => rw [hassoc]
    rw [List.drop_left' hhdrlen]
    simp [notifyJSONBytes, List.append_assoc]
  · have hpre : buildNotifyMessage now appName state =
        (u32le (37 + (notifyJSONBytes appName state).length + 10) ++
          u32le 0x00000200 ++ u32le 0x00000200 ++ u32le now ++ u32le 1 ++
          u32le 1000 ++ u32le 0 ++ List.replicate 8 32 ++ [0] ++
          notifyJSONBytes appName state) ++ notifyTrailing := by
      rw [hassoc]
      simp only [List.append_assoc]
    have hprelen : (u32le (37 + (notifyJSONBytes appName state).length + 10) ++
        u32le 0x00000200 ++ u32le 0x00000200 ++ u32le now ++ u32le 1 ++
        u32le 1000 ++ u32le 0 ++ List.replicate 8 32 ++ [0] ++
        notifyJSONBytes appName state).length =
        37 + (notifyJSONBytes appName state).length := by
      simp [u32le]
      omega
    rw [hlen]
    have hsub : 37 + (notifyJSONBytes appName state).length + 10 - 10 =
        37 + (notifyJSONBytes appName state).length := by omega
    rw [hsub]
    conv_lhs => rw [hpre]
    rw [List.drop_left' hprelen]
    rfl

set_option maxRecDepth 4000 in
/-- Witness for C2 at a concrete build instant, app name and state. -/
theorem c2_notify_layout_witness :
    (buildNotifyMessage 5 "nginx" "running").length < 4294967296 ∧
    decodeU32LE (buildNotifyMessage 5 "nginx" "running") =
      (buildNotifyMessage 5 "nginx" "running").length :=
  ⟨by decide, (c2_notify_layout 5 "nginx" "running").2.1 (by decide)⟩

/-- C3 counterexample: a payload containing `"result":"succ"`, `"reqid"`
and `"list":[` but not `"data":{"list":[` is classified as an app-list
response by the user-space re-verification, while the claimed rule (the
kernel probe's bounded patterns) rejects it — so the claimed
characterisation of the user-space check is false. -/
theorem c3_counterexample :
    isAppStoreListResponse
      (strBytes "\x7b\"result\":\"succ\",\"reqid\":\"abc\",\"list\":[]\x7d") = true ∧
    specAppListClassifier
      (strBytes "\x7b\"result\":\"succ\",\"reqid\":\"abc\",\"list\":[]\x7d") = false := by
  decide

/-- C3 (amended): the user-space re-verification classifies a captured
payload as an app-list response iff it contains the literal substrings
`"result":"succ"`, `"reqid"` and `"list":[` anywhere in the payload (no
positional bound); an event whose payload fails this re-verification
produces no rewrite emission and leaves the dedup table and the
processed/injected statistics unchanged (only the received counter
increments). -/
theorem c3_userspace_classification
    (parseReqid : List Nat → Option (List Nat)) (injectOk : Bool)
    (now : Nat) (st : InterceptorState) (ev : ProcEvent) :
    (isAppStoreListResponse ev.data = true ↔
      (strBytes "\"result\":\"succ\"" <:+: ev.data) ∧
      (strBytes "\"reqid\"" <:+: ev.data) ∧
      (strBytes "\"list\":[" <:+: ev.data)) ∧
    (isAppStoreListResponse ev.data = false →
      processEvent parseReqid injectOk now st ev =
        ({ st with eventsReceived := st.eventsReceived + 1 }, false)) := by
  constructor
  · unfold isAppStoreListResponse
    rw [Bool.and_eq_true, Bool.and_eq_true,
      containsSub_iff_isInfix, containsSub_iff_isInfix, containsSub_iff_isInfix]
    tauto
  · intro hfail
    unfold processEvent
    by_cases h1 : ev.data.length ≤ 20
    · simp [h1]
    · simp [h1, hfail]

/-- Witness for C3 (amended) at a concrete event that fails the
re-verification. -/
theorem c3_userspace_classification_witness :
    processEvent (fun _ => none) true 0 ⟨[], 0, 0, 0⟩
        ⟨0, strBytes "this payload is long but has no markers"⟩ =
      ({ processedReqs := [], eventsReceived := 1, eventsProcessed := 0,
         responsesInjected := 0 }, false) :=
  (c3_userspace_classification (fun _ => none) true 0 ⟨[], 0, 0, 0⟩
    ⟨0, strBytes "this payload is long but has no markers"⟩).2 (by decide)

/-- The dedup entry stored by `markRequestProcessed` survives its own
eviction pass and is found by the next lookup. -/
theorem lookupReq_markRequestProcessed (reqs : List (List Nat × Nat))
    (now : Nat) (id : List Nat) :
    lookupReq (markRequestProcessed reqs now id) id = some now := by
  unfold markRequestProcessed lookupReq
  have hkeep : ¬ now < now - oneMinuteNs := by omega
  simp [List.filter_cons, hkeep, List.find?_cons]

/-- A capture whose reqid sits in the dedup table within the five-second
window is suppressed: the interceptor only counts it as received. -/
theorem processEvent_suppressed (parseReqid : List Nat → Option (List Nat))
    (injectOk : Bool) (now : Nat) (st : InterceptorState) (ev : ProcEvent)
    (id : List Nat) (te : Nat)
    (hid : resolveReqid parseReqid ev = id)
    (hte : lookupReq st.processedReqs id = some te)
    (hwin : now - te < fiveSecondsNs) :
    processEvent parseReqid injectOk now st ev =
      ({ st with eventsReceived := st.eventsReceived + 1 }, false) := by
  unfold processEvent
  by_cases h1 : ev.data.length ≤ 20
  · simp [h1]
  · by_cases h2 : isAppStoreListResponse ev.data
    · have hskip : shouldSkipRequest st.processedReqs now
          (resolveReqid parseReqid ev) = true := by
        rw [hid]
        unfold shouldSkipRequest
        rw [hte]
        simpa using hwin
      simp [h1, h2, hskip]
    · simp [h1, h2]

/-- A non-emitting call of `processEvent` leaves the dedup table and the
success counters untouched. -/
theorem processEvent_no_emit (parseReqid : List Nat → Option (List Nat))
    (injectOk : Bool) (now : Nat) (st : InterceptorState) (ev : ProcEvent)
    (hne : (processEvent parseReqid injectOk now st ev).2 = false) :
    (processEvent parseReqid injectOk now st ev).1.processedReqs =
      st.processedReqs ∧
    (processEvent parseReqid injectOk now st ev).1.eventsProcessed =
      st.eventsProcessed ∧
    (processEvent parseReqid injectOk now st ev).1.responsesInjected =
      st.responsesInjected := by
  unfold processEvent at hne ⊢
  by_cases h1 : ev.data.length ≤ 20
  · simp [h1]
  · by_cases h2 : isAppStoreListResponse ev.data
    · by_cases h3 : shouldSkipRequest st.processedReqs now
          (resolveReqid parseReqid ev) = true
      · simp [h1, h2, h3]
      · cases hok : injectOk
        · simp [h1, h2, h3, hok]
        · simp [h1, h2, h3, hok] at hne
    · simp [h1, h2]

/-- An emitting call of `processEvent` marks the resolved reqid through
`markRequestProcessed`. -/
theorem processEvent_emit (parseReqid : List Nat → Option (List Nat))
    (injectOk : Bool) (now : Nat) (st : InterceptorState) (ev : ProcEvent)
    (hem : (processEvent parseReqid injectOk now st ev).2 = true) :
    (processEvent parseReqid injectOk now st ev).1.processedReqs =
      markRequestProcessed st.processedReqs now
        (resolveReqid parseReqid ev) := by
  unfold processEvent at hem ⊢
  by_cases h1 : ev.data.length ≤ 20
  · simp [h1] at hem
  · by_cases h2 : isAppStoreListResponse ev.data
    · by_cases h3 : shouldSkipRequest st.processedReqs now
          (resolveReqid parseReqid ev) = true
      · simp [h1, h2, h3] at hem
      · cases hok : injectOk
        · simp [h1, h2, h3, hok] at hem
        · simp [h1, h2, h3, hok]
    · simp [h1, h2] at hem

/-- A whole run of captures carrying a reqid that the state already records
within the five-second window emits nothing. -/
theorem runEvents_suppressed (parseReqid : List Nat → Option (List Nat))
    (evs : List (Nat × ProcEvent × Bool)) (st : InterceptorState)
    (id : List Nat) (te : Nat)
    (hte : lookupReq st.processedReqs id = some te)
    (hall : ∀ x ∈ evs, resolveReqid parseReqid x.2.1 = id ∧
      x.1 - te < fiveSecondsNs) :
    (runEvents parseReqid evs st).2 = 0 := by
  induction evs generalizing st with
  | nil => rfl
  | cons x rest ih =>
    obtain ⟨now, ev, ok⟩ := x
    obtain ⟨hid, hwin⟩ := hall _ (List.mem_cons_self _ _)
    have hstep := processEvent_suppressed parseReqid ok now st ev id te hid hte hwin
    unfold runEvents
    rw [hstep]
    simp only
    have hte' : lookupReq ({ st with
        eventsReceived := st.eventsReceived + 1 } :
          InterceptorState).processedReqs id = some te := hte
    rw [ih _ hte' (fun x hx => hall x (List.mem_cons_of_mem _ hx))]
    simp

/-- Unfolding equation for `runEvents` on a cons cell. -/
theorem runEvents_cons (p : List Nat → Option (List Nat)) (now : Nat)
    (ev : ProcEvent) (ok : Bool) (rest : List (Nat × ProcEvent × Bool))
    (st : InterceptorState) :
    runEvents p ((now, ev, ok) :: rest) st =
      ((runEvents p rest (processEvent p ok now st ev).1).1,
       (if (processEvent p ok now st ev).2 = true then 1 else 0) +
         (runEvents p rest (processEvent p ok now st ev).1).2) := by
  rfl

/-- Captures of one reqid whose call instants all lie within the
five-second window of every earlier one produce at most one rewrite. -/
theorem runEvents_at_most_one (parseReqid : List Nat → Option (List Nat))
    (id : List Nat) (evs : List (Nat × ProcEvent × Bool))
    (st : InterceptorState)
    (hpw : List.Pairwise (fun a b => b.1 - a.1 < fiveSecondsNs) evs)
    (hall : ∀ x ∈ evs, resolveReqid parseReqid x.2.1 = id) :
    (runEvents parseReqid evs st).2 ≤ 1 := by
  induction evs generalizing st with
  | nil => simp [runEvents]
  | cons x rest ih =>
    obtain ⟨now, ev, ok⟩ := x
    rw [List.pairwise_cons] at hpw
    obtain ⟨hhead, htail⟩ := hpw
    rw [runEvents_cons]
    cases hem : (processEvent parseReqid ok now st ev).2 with
    | false =>
      simp only [hem, Bool.false_eq_true, if_false, zero_add]
      exact ih ((processEvent parseReqid ok now st ev).1) htail
        (fun x hx => hall x (List.mem_cons_of_mem _ hx))
    | true =>
      simp only [hem, if_true]
      have hid : resolveReqid parseReqid ev = id :=
        hall _ (List.mem_cons_self _ _)
      have hmark := processEvent_emit parseReqid ok now st ev hem
      have hlk : lookupReq
          (processEvent parseReqid ok now st ev).1.processedReqs id =
          some now := by
        rw [hmark, ← hid]
        exact lookupReq_markRequestProcessed _ _ _
      have h0 := runEvents_suppressed parseReqid rest
        ((processEvent parseReqid ok now st ev).1) id now hlk
        (fun x hx => ⟨hall x (List.mem_cons_of_mem _ hx), hhead x hx⟩)
      omega

/-- C4: captures of one reqid separated by less than five seconds emit at
most one rewrite; once the dedup entry is more than five seconds old a new
emission is permitted (given the classification checks and a successful
injection); the reqid is recorded only on an emission (a failed injection
or any skipped check leaves the table unchanged); and the emission's
eviction pass leaves no entry older than sixty seconds. -/
theorem c4_dedup_window (parseReqid : List Nat → Option (List Nat))
    (id : List Nat) (evs : List (Nat × ProcEvent × Bool))
    (st : InterceptorState) (ok : Bool) (now te : Nat) (ev : ProcEvent) :
    (List.Pairwise (fun a b => b.1 - a.1 < fiveSecondsNs) evs →
     (∀ x ∈ evs, resolveReqid parseReqid x.2.1 = id) →
     (runEvents parseReqid evs st).2 ≤ 1) ∧
    (lookupReq st.processedReqs id = some te →
     fiveSecondsNs < now - te →
     resolveReqid parseReqid ev = id →
     20 < ev.data.length →
     isAppStoreListResponse ev.data = true →
     (processEvent parseReqid true now st ev).2 = true) ∧
    ((processEvent parseReqid ok now st ev).2 = false →
     (processEvent parseReqid ok now st ev).1.processedReqs =
       st.processedReqs) ∧
    ((processEvent parseReqid ok now st ev).2 = true →
     (processEvent parseReqid ok now st ev).1.processedReqs =
       markRequestProcessed st.processedReqs now
         (resolveReqid parseReqid ev) ∧
     ∀ q ∈ (processEvent parseReqid ok now st ev).1.processedReqs,
       ¬ q.2 < now - oneMinuteNs) := by
  refine ⟨?_, ?_, ?_, ?_⟩
  · intro hpw hall
    exact runEvents_at_most_one parseReqid id evs st hpw hall
  · intro hte hgap hid hlen happ
    have hskip : shouldSkipRequest st.processedReqs now
        (resolveReqid parseReqid ev) = false := by
      rw [hid]
      unfold shouldSkipRequest
      rw [hte]
      simp only [decide_eq_false_iff_not]
      omega
    unfold processEvent
    have h1 : ¬ ev.data.length ≤ 20 := by omega
    simp [h1, happ, hskip]
  · intro hne
    exact (processEvent_no_emit parseReqid ok now st ev hne).1
  · intro hem
    refine ⟨processEvent_emit parseReqid ok now st ev hem, ?_⟩
    intro q hq
    rw [processEvent_emit parseReqid ok now st ev hem] at hq
    unfold markRequestProcessed at hq
    have := List.of_mem_filter hq
    simpa using this

/-- Witness for C4: two captures of one reqid 1 µs apart yield at most one
rewrite, and a capture six seconds after the recorded emission is
emitted again. -/
theorem c4_dedup_window_witness :
    (runEvents (fun _ => some (strBytes "r1"))
        [(0, ⟨0, strBytes "\"result\":\"succ\",\"reqid\":\"r1\",\"list\":[]"⟩, true),
         (1000, ⟨0, strBytes "\"result\":\"succ\",\"reqid\":\"r1\",\"list\":[]"⟩, true)]
        ⟨[], 0, 0, 0⟩).2 ≤ 1 ∧
    (processEvent (fun _ => some (strBytes "r1")) true 6000000000
        ⟨[(strBytes "r1", 0)], 0, 0, 0⟩
        ⟨0, strBytes "\"result\":\"succ\",\"reqid\":\"r1\",\"list\":[]"⟩).2 = true :=
  ⟨(c4_dedup_window (fun _ => some (strBytes "r1")) (strBytes "r1")
      [(0, ⟨0, strBytes "\"result\":\"succ\",\"reqid\":\"r1\",\"list\":[]"⟩, true),
       (1000, ⟨0, strBytes "\"result\":\"succ\",\"reqid\":\"r1\",\"list\":[]"⟩, true)]
      ⟨[], 0, 0, 0⟩ true 6000000000 0
      ⟨0, strBytes "\"result\":\"succ\",\"reqid\":\"r1\",\"list\":[]"⟩).1
      (by decide) (by decide),
   (c4_dedup_window (fun _ => some (strBytes "r1")) (strBytes "r1")
      [(0, ⟨0, strBytes "\"result\":\"succ\",\"reqid\":\"r1\",\"list\":[]"⟩, true),
       (1000, ⟨0, strBytes "\"result\":\"succ\",\"reqid\":\"r1\",\"list\":[]"⟩, true)]
      ⟨[(strBytes "r1", 0)], 0, 0, 0⟩ true 6000000000 0
      ⟨0, strBytes "\"result\":\"succ\",\"reqid\":\"r1\",\"list\":[]"⟩).2.1
      (by decide) (by decide) (by decide) (by decide) (by decide)⟩

/-- Characterisation of `hasTrimPeer`: the inode parses as a 32-bit
number, the `SOCK_DIAG` resolver yields a nonzero peer inode, the peer
process is found, and its name contains `trim` but not `trim_sac`. -/
theorem hasTrimPeer_eq_true_iff (env : SocketEnv) (inode : List Nat) :
    hasTrimPeer env inode = true ↔
      ∃ n, parseUint32Str inode = some n ∧ env.resolvePeer n ≠ 0 ∧
        ∃ pr, env.peerProcess (env.resolvePeer n) = some pr ∧
          (strBytes "trim" <:+: pr.2) ∧
          ¬ (strBytes "trim_sac" <:+: pr.2) := by
  unfold hasTrimPeer
  cases hp : parseUint32Str inode with
  | none => simp
  | some n =>
    by_cases hz : env.resolvePeer n = 0
    · simp [hz]
    · cases hpp : env.peerProcess (env.resolvePeer n) with
      | none => simp [hz, hpp]
      | some pr =>
        simp only [hz, if_false, hpp, Bool.and_eq_true, Bool.not_eq_true']
        constructor
        · rintro ⟨h1, h2⟩
          refine ⟨n, rfl, hz, pr, hpp, (containsSub_iff_isInfix _ _).mp h1, ?_⟩
          intro hinf
          rw [← containsSub_iff_isInfix, h2] at hinf
          exact Bool.false_ne_true hinf
        · rintro ⟨n', hn', hz', pr', hpr', h1, h2⟩
          rw [Option.some.injEq] at hn'
          subst hn'
          rw [hpp, Option.some.injEq] at hpr'
          subst hpr'
          refine ⟨(containsSub_iff_isInfix _ _).mpr h1, ?_⟩
          by_contra hne
          rw [Bool.not_eq_false, containsSub_iff_isInfix] at hne
          exact h2 hne

/-- Shape of `getSocketDetailedInfo` on an anonymous socket path: the
returned inode is the extracted one, and the connection verdict holds iff
the matching `/proc/<pid>/net/unix` row carries state `01` or `03`. -/
theorem getSocketDetailedInfo_spec (env : SocketEnv) (sp : List Nat)
    (hanon : (strBytes "socket:[").isPrefixOf sp = true) :
    (getSocketDetailedInfo env sp).2 = extractInode sp ∧
    ((getSocketDetailedInfo env sp).1 = true ↔
      ∃ line, env.pidUnix.find? (fun l => l.inode == extractInode sp) =
          some line ∧
        (line.state = strBytes "01" ∨ line.state = strBytes "03")) := by
  unfold getSocketDetailedInfo
  rw [if_pos hanon]
  cases hfind : env.pidUnix.find? (fun l => l.inode == extractInode sp) with
  | none => simp
  | some line => simp [Bool.or_eq_true, beq_iff_eq]

/-- Witness instantiation helper for `getSocketDetailedInfo_spec` showing
the hypothesis is realisable (an anonymous fixture row). -/
theorem getSocketDetailedInfo_spec_witness :
    ((getSocketDetailedInfo
        ⟨fun _ => none, [], [⟨strBytes "123", strBytes "01", none⟩],
          fun _ => 0, fun _ => none⟩
        (strBytes "socket:[123]")).2 = extractInode (strBytes "socket:[123]")) :=
  (getSocketDetailedInfo_spec
    ⟨fun _ => none, [], [⟨strBytes "123", strBytes "01", none⟩],
      fun _ => 0, fun _ => none⟩
    (strBytes "socket:[123]") (by decide)).1

/-- C6: the fds selected by the notifier's socket scan are exactly those
fds of at least 3 whose readlink target is an anonymous `socket:[inode]`
path (after the filesystem-path lookup), whose row in
`/proc/<pid>/net/unix` carries state `01` or `03`, and whose peer process
name — resolved via the `SOCK_DIAG` peer inode and the `/proc` scan —
contains `trim` but not `trim_sac`. -/
theorem c6_socket_selection (env : SocketEnv) (fdList : List Nat)
    (fd : Nat) :
    fd ∈ findActiveSocketFDs env fdList ↔
      fd ∈ fdList ∧ 3 ≤ fd ∧
      ∃ target, env.readlink fd = some target ∧
        (strBytes "socket:[").isPrefixOf (getSocketPath env target) ∧
        (∃ line, env.pidUnix.find? (fun l =>
            l.inode == extractInode (getSocketPath env target)) = some line ∧
          (line.state = strBytes "01" ∨ line.state = strBytes "03")) ∧
        (∃ n, parseUint32Str (extractInode (getSocketPath env target)) =
            some n ∧ env.resolvePeer n ≠ 0 ∧
          ∃ pr, env.peerProcess (env.resolvePeer n) = some pr ∧
            (strBytes "trim" <:+: pr.2) ∧
            ¬ (strBytes "trim_sac" <:+: pr.2)) := by
  unfold findActiveSocketFDs
  rw [List.mem_filter]
  constructor
  · rintro ⟨hmem, hacc⟩
    unfold acceptFD at hacc
    by_cases h3 : fd < 3
    · rw [if_pos h3] at hacc
      exact absurd hacc Bool.false_ne_true
    · rw [if_neg h3] at hacc
      refine ⟨hmem, by omega, ?_⟩
      cases hrl : env.readlink fd with
      | none => rw [hrl] at hacc; exact absurd hacc Bool.false_ne_true
      | some target =>
        rw [hrl] at hacc
        simp only at hacc
        refine ⟨target, rfl, ?_⟩
        by_cases hanon : (strBytes "socket:[").isPrefixOf
            (getSocketPath env target) = true
        · rw [if_neg (by simp [hanon])] at hacc
          rw [Bool.and_eq_true] at hacc
          obtain ⟨hconn, hpeer⟩ := hacc
          obtain ⟨hsnd, hfst⟩ := getSocketDetailedInfo_spec env
            (getSocketPath env target) hanon
          refine ⟨hanon, hfst.mp hconn, ?_⟩
          rw [hsnd] at hpeer
          exact (hasTrimPeer_eq_true_iff env _).mp hpeer
        · rw [if_pos (by simpa using hanon)] at hacc
          exact absurd hacc Bool.false_ne_true
  · rintro ⟨hmem, h3, target, hrl, hanon, hstate, hpeer⟩
    refine ⟨hmem, ?_⟩
    unfold acceptFD
    rw [if_neg (by omega : ¬ fd < 3), hrl]
    simp only
    rw [if_neg (by simp [hanon])]
    rw [Bool.and_eq_true]
    obtain ⟨hsnd, hfst⟩ := getSocketDetailedInfo_spec env
      (getSocketPath env target) hanon
    refine ⟨hfst.mpr hstate, ?_⟩
    rw [hsnd]
    exact (hasTrimPeer_eq_true_iff env _).mpr hpeer

/-- The uncached send never touches the borrow cache. -/
theorem sendToFD_state (o : SysOracle) (st : PidfdState) (pid fd : Nat)
    (msg : List Nat) : (sendToFD o st pid fd msg).1 = st := by
  unfold sendToFD duplicateSocketFDNocache
  cases hd : o.dup pid fd <;> simp [hd]

/-- A per-fd send succeeds exactly when the duplication succeeds and the
single write transfers the whole message. -/
theorem sendToFD_ok_iff (o : SysOracle) (st : PidfdState) (pid fd : Nat)
    (msg : List Nat) :
    (sendToFD o st pid fd msg).2.1 = true ↔
      ∃ d, o.dup pid fd = some d ∧ o.write d msg = some msg.length := by
  unfold sendToFD duplicateSocketFDNocache
  cases hd : o.dup pid fd with
  | none => simp [hd]
  | some d =>
    cases hw : o.write d msg with
    | none => simp [hd, hw]
    | some n =>
      simp only [hd, hw]
      constructor
      · intro h
        rw [beq_iff_eq] at h
        exact ⟨d, rfl, by rw [hw, h]⟩
      · rintro ⟨d', hd', hw'⟩
        rw [Option.some.injEq] at hd'
        subst hd'
        rw [hw, Option.some.injEq] at hw'
        rw [beq_iff_eq]
        exact hw'

/-- State preservation and success count of the broadcast loop. -/
theorem broadcastToFDs_spec (o : SysOracle) (st : PidfdState)
    (pid now : Nat) (appName state : String) (fds : List Nat) :
    (broadcastToFDs o st pid now appName state fds).1 = st ∧
    ((broadcastToFDs o st pid now appName state fds).2.1 ≠ 0 ↔
      ∃ fd ∈ fds, (sendToFD o st pid fd
        (buildNotifyMessage now appName state)).2.1 = true) := by
  induction fds with
  | nil => simp [broadcastToFDs]
  | cons fd rest ih =>
    obtain ⟨ihst, ihiff⟩ := ih
    have hst : (sendToActiveClient o st pid fd now appName state).1 = st :=
      sendToFD_state o st pid fd (buildNotifyMessage now appName state)
    unfold broadcastToFDs
    rw [hst]
    refine ⟨ihst, ?_⟩
    cases hok : (sendToActiveClient o st pid fd now appName state).2.1 with
    | true =>
      simp only [hok, if_true]
      constructor
      · intro _
        exact ⟨fd, List.mem_cons_self _ _, hok⟩
      · intro _
        omega
    | false =>
      simp only [hok, Bool.false_eq_true, if_false, zero_add]
      rw [ihiff]
      constructor
      · rintro ⟨fd', hmem, hsend⟩
        exact ⟨fd', List.mem_cons_of_mem _ hmem, hsend⟩
      · rintro ⟨fd', hmem, hsend⟩
        rcases List.mem_cons.mp hmem with heq | hmem'
        · subst heq
          have hconv : (sendToActiveClient o st pid fd' now appName state).2.1 =
              (sendToFD o st pid fd'
                (buildNotifyMessage now appName state)).2.1 := rfl
          rw [hconv, hsend] at hok
          exact absurd hok (by simp)
        · exact ⟨fd', hmem', hsend⟩

/-- C7: the notification broadcast succeeds iff at least one candidate fd
admits a successful duplication followed by a full-length single write; the
borrow cache is untouched (every handle is an uncached duplicate); each
fd's attempt performs exactly one duplication, at most one write of the
same built message, and a close of the duplicated handle; and a write
transferring fewer bytes than the message fails that attempt. -/
theorem c7_notification_broadcast (o : SysOracle) (st : PidfdState)
    (pid now : Nat) (appName state : String) (fds : List Nat) :
    ((sendContainerNotification o st pid now appName state fds).2.1 = true ↔
      ∃ fd ∈ fds, ∃ d, o.dup pid fd = some d ∧
        o.write d (buildNotifyMessage now appName state) =
          some (buildNotifyMessage now appName state).length) ∧
    (sendContainerNotification o st pid now appName state fds).1 = st ∧
    (∀ fd d, o.dup pid fd = some d →
      (sendToFD o st pid fd (buildNotifyMessage now appName state)).2.2 =
        [.dupSys pid fd (some d),
         .wr d (buildNotifyMessage now appName state)
           (o.write d (buildNotifyMessage now appName state)),
         .close d]) ∧
    (∀ fd, o.dup pid fd = none →
      (sendToFD o st pid fd (buildNotifyMessage now appName state)).2.2 =
        [.dupSys pid fd none]) ∧
    (∀ fd d n, o.dup pid fd = some d →
      o.write d (buildNotifyMessage now appName state) = some n →
      n ≠ (buildNotifyMessage now appName state).length →
      (sendToFD o st pid fd (buildNotifyMessage now appName state)).2.1 =
        false) := by
  obtain ⟨hbst, hbiff⟩ := broadcastToFDs_spec o st pid now appName state fds
  refine ⟨?_, ?_, ?_, ?_, ?_⟩
  · unfold sendContainerNotification
    by_cases hemp : fds.isEmpty
    · rw [if_pos hemp]
      rw [List.isEmpty_iff] at hemp
      subst hemp
      simp
    · rw [if_neg hemp]
      constructor
      · intro h
        have hne : (broadcastToFDs o st pid now appName state fds).2.1 ≠ 0 := by
          simpa using h
        obtain ⟨fd, hmem, hsend⟩ := hbiff.mp hne
        exact ⟨fd, hmem, (sendToFD_ok_iff o st pid fd _).mp hsend⟩
      · rintro ⟨fd, hmem, hsend⟩
        have hne : (broadcastToFDs o st pid now appName state fds).2.1 ≠ 0 :=
          hbiff.mpr ⟨fd, hmem, (sendToFD_ok_iff o st pid fd _).mpr hsend⟩
        simpa using hne
  · unfold sendContainerNotification
    by_cases hemp : fds.isEmpty
    · rw [if_pos hemp]
    · rw [if_neg hemp]
      exact hbst
  · intro fd d hd
    unfold sendToFD duplicateSocketFDNocache
    rw [hd]
    simp
  · intro fd hd
    unfold sendToFD duplicateSocketFDNocache
    rw [hd]
  · intro fd d n hd hw hne
    unfold sendToFD duplicateSocketFDNocache
    rw [hd]
    simp only [hw]
    exact beq_eq_false_iff_ne.mpr hne

/-- Witness for C7 at a concrete oracle, fd set and message. -/
theorem c7_notification_broadcast_witness :
    (sendToFD ⟨fun _ => true, fun _ fd => some (fd + 100),
        fun _ msg => some msg.length⟩ ⟨[]⟩ 7 3
        (buildNotifyMessage 0 "a" "b")).2.2 =
      [FDAction.dupSys 7 3 (some 103),
       FDAction.wr 103 (buildNotifyMessage 0 "a" "b")
         (some (buildNotifyMessage 0 "a" "b").length),
       FDAction.close 103] :=
  (c7_notification_broadcast
    ⟨fun _ => true, fun _ fd => some (fd + 100), fun _ msg => some msg.length⟩
    ⟨[]⟩ 7 0 "a" "b" [3]).2.2.1 3 103 rfl

/-- Erasing a cache key makes its lookup fail. -/
theorem lookupCache_erase (st : PidfdState) (pid fd : Nat) :
    lookupCache (eraseCache st pid fd) pid fd = none := by
  unfold lookupCache eraseCache
  rw [List.find?_eq_none.mpr]
  · rfl
  · intro x hx
    have := List.of_mem_filter hx
    simpa using this

/-- A freshly inserted cache entry is found by the next lookup. -/
theorem lookupCache_insert (st : PidfdState) (pid fd v : Nat) :
    lookupCache (insertCache st pid fd v) pid fd = some v := by
  unfold lookupCache insertCache
  simp [List.find?_cons]

/-- Manager-local ownership facts about `PidfdManager` taken in isolation:
its teardown closes every fd the cache holds and empties the cache; neither
borrow operation emits a close; a cached borrow whose entry passes the
descriptor-flags validation returns the memoised fd with no new
duplication; a cached borrow whose entry fails validation evicts it, so any
fd subsequently cached under that key is a fresh duplicate; and the
uncached borrow leaves the cache untouched.  (The program as a whole does
not respect this ownership model: see the evaluation of `injectResponse`
below, which closes a cache-held fd.) -/
theorem pidfdManager_cache_ownership (o : SysOracle) (st : PidfdState)
    (pid fd c : Nat) :
    ((closePidfdManager st).1 = ⟨[]⟩ ∧
     (closePidfdManager st).2 = st.cachedFDs.map (fun p => .close p.2) ∧
     ∀ p ∈ st.cachedFDs, FDAction.close p.2 ∈ (closePidfdManager st).2) ∧
    (∀ a ∈ (duplicateSocketFD o st pid fd).2.2, ∀ n, a ≠ FDAction.close n) ∧
    (∀ a ∈ (duplicateSocketFDNocache o st pid fd).2.2, ∀ n,
      a ≠ FDAction.close n) ∧
    (lookupCache st pid fd = some c → o.valid c = true →
      duplicateSocketFD o st pid fd = (st, some c, [.validate c])) ∧
    (lookupCache st pid fd = some c → o.valid c = false →
      ((∀ d, lookupCache (duplicateSocketFD o st pid fd).1 pid fd = some d →
          o.dup pid fd = some d) ∧
       FDAction.validate c ∈ (duplicateSocketFD o st pid fd).2.2)) ∧
    (duplicateSocketFDNocache o st pid fd).1 = st := by
  refine ⟨⟨rfl, rfl, ?_⟩, ?_, ?_, ?_, ?_, rfl⟩
  · intro p hp
    unfold closePidfdManager
    exact List.mem_map_of_mem _ hp
  · intro a ha n
    unfold duplicateSocketFD at ha
    cases hl : lookupCache st pid fd with
    | none =>
      rw [hl] at ha
      cases hdp : o.dup pid fd with
      | none =>
        simp only [hdp, List.mem_singleton] at ha
        subst ha
        simp
      | some newFD =>
        simp only [hdp, List.mem_singleton] at ha
        subst ha
        simp
    | some cached =>
      rw [hl] at ha
      by_cases hv : o.valid cached = true
      · simp only [hv, if_true, List.mem_singleton] at ha
        subst ha
        simp
      · have hv' : o.valid cached = false := by
          cases h : o.valid cached
          · rfl
          · exact absurd h hv
        cases hdp : o.dup pid fd with
        | none =>
          simp only [hv', Bool.false_eq_true, if_false, hdp, List.mem_cons,
            List.mem_singleton, List.not_mem_nil, or_false] at ha
          rcases ha with ha | ha
          · subst ha
            simp
          · subst ha
            simp
        | some newFD =>
          simp only [hv', Bool.false_eq_true, if_false, hdp, List.mem_cons,
            List.mem_singleton, List.not_mem_nil, or_false] at ha
          rcases ha with ha | ha
          · subst ha
            simp
          · subst ha
            simp
  · intro a ha n
    unfold duplicateSocketFDNocache at ha
    simp only [List.mem_singleton] at ha
    subst ha
    intro h
    cases h
  · intro hl hv
    unfold duplicateSocketFD
    rw [hl]
    simp only [hv, if_true]
  · intro hl hv
    unfold duplicateSocketFD
    rw [hl]
    cases hdp : o.dup pid fd with
    | none =>
      simp only [hv, Bool.false_eq_true, if_false, hdp]
      refine ⟨?_, by simp⟩
      intro d hd
      rw [lookupCache_erase] at hd
      cases hd
    | some newFD =>
      simp only [hv, Bool.false_eq_true, if_false, hdp]
      refine ⟨?_, by simp⟩
      intro d hd
      rw [lookupCache_insert, Option.some.injEq] at hd
      subst hd
      rfl

/-- Instantiation of the manager-local ownership facts at a concrete cache
and oracle, discharging their hypotheses. -/
theorem pidfdManager_cache_ownership_witness :
    duplicateSocketFD
        ⟨fun _ => true, fun _ _ => none, fun _ _ => none⟩
        ⟨[((1, 2), 9)]⟩ 1 2 =
      (⟨[((1, 2), 9)]⟩, some 9, [FDAction.validate 9]) :=
  (pidfdManager_cache_ownership
    ⟨fun _ => true, fun _ _ => none, fun _ _ => none⟩
    ⟨[((1, 2), 9)]⟩ 1 2 9).2.2.2.1 (by decide) rfl

/-- C8 (evaluation at the failing input): the probe's capture length is the
count for writes below 4096 bytes, but the verifier mask `& 0xFFF` zeroes
the capped value for any write of 4096 bytes or more, so such a write is
captured with zero copied bytes and a reported length of 0 — not the
claimed `min(count, 4096)`. -/
theorem c8_capture_length_bug :
    traceWriteReadLen 4095 = 4095 ∧
    traceWriteReadLen 4096 = 0 ∧
    traceWriteReadLen 5000 = 0 ∧
    (traceWrite (List.replicate 4096 65) 4096).dataLen = 0 ∧
    (traceWrite (List.replicate 4096 65) 4096).data = [] := by
  decide

/-- Effect of a single in-bounds user-memory write: the buffer keeps its
length, bytes outside the written window are untouched, and the window
holds the written bytes. -/
theorem writeAt_spec (buf w : List Nat) (off : Nat)
    (hle : off + w.length ≤ buf.length) :
    (writeAt buf off w).length = buf.length ∧
    (∀ i, i < off → (writeAt buf off w).getD i 0 = buf.getD i 0) ∧
    (∀ i, off + w.length ≤ i →
      (writeAt buf off w).getD i 0 = buf.getD i 0) ∧
    (∀ j, j < w.length →
      (writeAt buf off w).getD (off + j) 0 = w.getD j 0) := by
  have htk : (buf.take off).length = off := by
    rw [List.length_take]
    omega
  refine ⟨?_, ?_, ?_, ?_⟩
  · unfold writeAt
    simp only [List.length_append, List.length_take, List.length_drop]
    omega
  · intro i hi
    unfold writeAt
    have hi' : i < (buf.take off).length := by omega
    rw [List.append_assoc]
    simp [List.getD, List.getElem?_append_left hi', List.getElem?_take_of_lt hi]
  · intro i hi
    unfold writeAt
    have hlen2 : (buf.take off ++ w).length = off + w.length := by
      rw [List.length_append, htk]
    have hge : (buf.take off ++ w).length ≤ i := by omega
    simp only [List.getD, List.get?_eq_getElem?]
    rw [List.getElem?_append_right hge, hlen2, List.getElem?_drop]
    have heq : off + w.length + (i - (off + w.length)) = i := by omega
    rw [heq]
  · intro j hj
    unfold writeAt
    have hlt : off + j < (buf.take off ++ w).length := by
      rw [List.length_append, htk]
      omega
    simp only [List.getD, List.get?_eq_getElem?]
    rw [List.getElem?_append_left hlt, List.getElem?_append_right (by omega : (buf.take off).length ≤ off + j)]
    rw [htk]
    have heq : off + j - off = j := by omega
    rw [heq]

/-- C9: whenever the probe sets `FLAG_APPSTORE` and its bounded search
finds `"reqid":"` at position `k` (below 150) in the captured payload, the
scheduled user-memory effect is exactly one write of the four ASCII bytes
`XXXX` at offset `k + 9 + 24` — the 25th byte of the reqid value — and
applying it modifies no other byte of the caller's buffer. -/
theorem c9_reqid_invalidation (buf : List Nat) (count k : Nat)
    (happ : (traceWrite buf count).flags &&& 1 = 1)
    (hreq : findFirstAt (traceWrite buf count).data reqidPattern
      (min 150 ((traceWrite buf count).data.length - 40)) = some k) :
    (traceWrite buf count).userWrites = [(k + 9 + 24, strBytes "XXXX")] ∧
    k < 150 ∧
    hasPrefixAt (traceWrite buf count).data reqidPattern k = true ∧
    (applyUserWrites buf (traceWrite buf count).userWrites).length =
      buf.length ∧
    (∀ i, i < k + 33 →
      (applyUserWrites buf (traceWrite buf count).userWrites).getD i 0 =
        buf.getD i 0) ∧
    (∀ i, k + 37 ≤ i →
      (applyUserWrites buf (traceWrite buf count).userWrites).getD i 0 =
        buf.getD i 0) ∧
    (∀ j, j < 4 →
      (applyUserWrites buf (traceWrite buf count).userWrites).getD
          (k + 33 + j) 0 =
        (strBytes "XXXX").getD j 0) := by
  set d := (traceWrite buf count).data with hd
  have hdbuf : d = buf.take (traceWriteReadLen count) := rfl
  have hflags : (traceWrite buf count).flags =
      (if (traceWriteAppStore d).1 then 1 else 0) +
      (if traceWriteNotify d then 2 else 0) := rfl
  have happ1 : (traceWriteAppStore d).1 = true := by
    by_contra hne
    rw [Bool.not_eq_true] at hne
    rw [hflags, hne] at happ
    cases hnf : traceWriteNotify d <;> rw [hnf] at happ <;> simp at happ
  have hk1 : k < min 150 (d.length - 40) := by
    have := List.mem_of_find?_eq_some hreq
    rwa [List.mem_range] at this
  have hkp : hasPrefixAt d reqidPattern k = true := List.find?_some hreq
  have hlen100 : d.length > 100 := by
    by_contra hle
    unfold traceWriteAppStore at happ1
    rw [if_neg (by omega)] at happ1
    exact Bool.false_ne_true happ1
  have hwrites : (traceWrite buf count).userWrites =
      [(k + 9 + 24, strBytes "XXXX")] := by
    have hw : (traceWrite buf count).userWrites =
        (traceWriteAppStore d).2 := rfl
    rw [hw]
    unfold traceWriteAppStore at happ1 ⊢
    rw [if_pos (by omega)] at happ1 ⊢
    cases hfind : findFirstAt d appStorePattern (min 200 (d.length - 16)) with
    | none =>
      simp only [hfind] at happ1
      exact absurd happ1 Bool.false_ne_true
    | some i =>
      simp only [hfind, hreq]
  have hdle : d.length ≤ buf.length := by
    rw [hdbuf, List.length_take]
    omega
  have hle : (k + 33) + (strBytes "XXXX").length ≤ buf.length := by
    have : (strBytes "XXXX").length = 4 := by decide
    omega
  obtain ⟨hwlen, hwlo, hwhi, hwin⟩ := writeAt_spec buf (strBytes "XXXX")
    (k + 33) hle
  have hap : applyUserWrites buf (traceWrite buf count).userWrites =
      writeAt buf (k + 33) (strBytes "XXXX") := by
    rw [hwrites]
    rfl
  refine ⟨hwrites, by omega, hkp, ?_, ?_, ?_, ?_⟩
  · rw [hap]
    exact hwlen
  · intro i hi
    rw [hap]
    exact hwlo i hi
  · intro i hi
    rw [hap]
    exact hwhi i (by
      have : (strBytes "XXXX").length = 4 := by decide
      omega)
  · intro j hj
    rw [hap]
    exact hwin j (by
      have : (strBytes "XXXX").length = 4 := by decide
      omega)

/-- Witness for C9 at a concrete captured app-list payload whose reqid
pattern sits at offset 25. -/
theorem c9_reqid_invalidation_witness :
    (traceWrite
        (strBytes "\x7b\"data\":\x7b\"result\":\"succ\",\"reqid\":\"abcdefghijklmnopqrstuvwxyz1234\",\"data\":\x7b\"list\":[]\x7d\x7d\x7d                    ")
        106).userWrites = [(25 + 9 + 24, strBytes "XXXX")] :=
  (c9_reqid_invalidation
    (strBytes "\x7b\"data\":\x7b\"result\":\"succ\",\"reqid\":\"abcdefghijklmnopqrstuvwxyz1234\",\"data\":\x7b\"list\":[]\x7d\x7d\x7d                    ")
    106 25 (by decide) (by decide)).1

/-- C10 (evaluation at the failing input): the claim says cache-held fds
are closed by the cache and only at teardown, with only the uncached
borrow transferring close responsibility — but `injectResponse` borrows
the captured fd through the caching `DuplicateSocketFD` and then closes
that fd with its deferred close.  At a concrete successful injection the
trace ends in a close of the duplicate (42) while the returned manager
state still caches it, and the subsequent teardown closes the same fd
number again. -/
theorem c10_cache_close_bug :
    injectResponse
        ⟨fun _ => true, fun _ _ => some 42, fun _ msg => some msg.length⟩
        ⟨fun _ => none, [], [], fun _ => 0, fun _ => none⟩
        (fun _ => some ⟨strBytes "succ", strBytes "r", []⟩)
        (fun _ => strBytes "m") [] ⟨[]⟩ 5 7 (strBytes "\x7b\x7d") =
      (⟨[((5, 7), 42)]⟩, true,
       [FDAction.dupSys 5 7 (some 42),
        FDAction.wr 42 (strBytes "m") (some 1),
        FDAction.close 42]) ∧
    lookupCache ⟨[((5, 7), 42)]⟩ 5 7 = some 42 ∧
    (closePidfdManager ⟨[((5, 7), 42)]⟩).2 = [FDAction.close 42] := by
  refine ⟨by decide, by decide, rfl⟩

end WatchCow
